import Mathlib

/-!
Verification of the ICC-Indicator repository's core components against its
natural-language specification.  Monetary quantities and prices are modelled
as rationals (`ℚ`); the random draws of the market simulation and the
identifiers generated at position-open time are passed in explicitly, so every
operation of the source becomes a pure function on an explicit state.
-/

namespace ICC

/-- `TradeExecution.action` values, from `types.ts`. -/
inductive TradeAction
  | BUY
  | SELL
  | WAIT
deriving DecidableEq

/-- `TradeExecution` from `types.ts` (the Analysis Oracle's signal). -/
structure TradeExecution where
  action : TradeAction
  orderType : String
  entryPrice : ℚ
  stopLoss : ℚ
  takeProfit1 : ℚ
  takeProfit2 : ℚ
  riskRewardRatio : ℚ
  suggestedLeverage : ℚ
  lotSizeCalculation : ℚ
  confidenceScore : ℚ
  invalidationLevel : ℚ
deriving DecidableEq

/-- Position status, from `types.ts` (`'OPEN' | 'CLOSED'`). -/
inductive PositionStatus
  | OPEN
  | CLOSED
deriving DecidableEq

/-- Close reason, from `types.ts` (`'TP' | 'SL' | 'MANUAL'`). -/
inductive CloseReason
  | TP
  | SL
  | MANUAL
deriving DecidableEq

/-- Position side, from `types.ts` (`'BUY' | 'SELL'`). -/
inductive PositionType
  | BUY
  | SELL
deriving DecidableEq

/-- The unchecked cast `execution.action as 'BUY' | 'SELL'` from
`paperTradingService.ts` (only reached when the action is not WAIT). -/
def castSide : TradeAction → PositionType
  | TradeAction.BUY => PositionType.BUY
  | _ => PositionType.SELL

/-- `TradePosition` from `types.ts`. -/
structure TradePosition where
  id : String
  ticket : ℕ
  asset : String
  type : PositionType
  entryPrice : ℚ
  currentPrice : ℚ
  sl : ℚ
  tp : ℚ
  lots : ℚ
  openTime : ℕ
  pnl : ℚ
  status : PositionStatus
  closeReason : Option CloseReason := none
deriving DecidableEq

/-- `AccountState` from `types.ts`. -/
structure AccountState where
  balance : ℚ
  equity : ℚ
  marginUsed : ℚ
  freeMargin : ℚ
  positions : List TradePosition
deriving DecidableEq

/-- `INITIAL_BALANCE` from `paperTradingService.ts`. -/
def INITIAL_BALANCE : ℚ := 100000

/-- The initial `accountState` of `paperTradingService.ts`. -/
def initialAccountState : AccountState :=
  { balance := INITIAL_BALANCE
    equity := INITIAL_BALANCE
    marginUsed := 0
    freeMargin := INITIAL_BALANCE
    positions := [] }

/-- `updateEquity` from `paperTradingService.ts`: equity is balance plus the
floating PnL of the open positions, and free margin is the fresh equity minus
the used margin. -/
def updateEquity (s : AccountState) : AccountState :=
  let floatingPnL := (s.positions.map TradePosition.pnl).sum
  let equity := s.balance + floatingPnL
  { s with equity := equity, freeMargin := equity - s.marginUsed }

/-- `executePaperTrade` from `paperTradingService.ts`.  The id generated by
`crypto.randomUUID()`, the ticket drawn by `Math.random` and `Date.now()` are
explicit arguments.  Returns the new state, whether `notifyListeners` ran, and
the value returned to the caller (`undefined` on the WAIT guard). -/
def executePaperTrade (newId : String) (newTicket : ℕ) (now : ℕ)
    (execution : TradeExecution) (asset : String) (s : AccountState) :
    AccountState × Bool × Option TradePosition :=
  if execution.action = TradeAction.WAIT then (s, false, none)
  else
    let newPosition : TradePosition :=
      { id := newId
        ticket := newTicket
        asset := asset
        type := castSide execution.action
        entryPrice := execution.entryPrice
        currentPrice := execution.entryPrice
        sl := execution.stopLoss
        tp := execution.takeProfit1
        lots := execution.lotSizeCalculation
        openTime := now
        pnl := 0
        status := PositionStatus.OPEN }
    let s1 : AccountState :=
      { s with
        positions := newPosition :: s.positions
        marginUsed :=
          s.marginUsed + newPosition.entryPrice * newPosition.lots * 100 / 100 }
    (updateEquity s1, true, some newPosition)

/-- The `findIndex` / `positions[posIndex]` / `splice(posIndex, 1)` combination
of `closePosition`: locate the first position with the given id and return it
together with the list with that one occurrence removed. -/
def removeFirstById (id : String) : List TradePosition →
    Option (TradePosition × List TradePosition)
  | [] => none
  | p :: rest =>
    if p.id = id then some (p, rest)
    else
      match removeFirstById id rest with
      | none => none
      | some (q, rest1) => some (q, p :: rest1)

/-- `closePosition` from `paperTradingService.ts`.  Returns the new state and
whether `notifyListeners` ran. -/
def closePosition (id : String) (s : AccountState) : AccountState × Bool :=
  match removeFirstById id s.positions with
  | none => (s, false)
  | some (pos, remaining) =>
    (updateEquity { s with balance := s.balance + pos.pnl, positions := remaining }, true)

/-- The per-position body of the `positions.map` in `tickMarket`, with the
price move as an explicit parameter: advance the price, recompute the PnL,
and check SL before TP (comparisons inverted for SELL). -/
def tickPos (move : ℚ) (pos : TradePosition) : TradePosition :=
  let newPrice := pos.currentPrice + move
  let priceDiff := newPrice - pos.entryPrice
  let direction : ℚ := if pos.type = PositionType.BUY then 1 else -1
  let pnl := priceDiff * direction * pos.lots * 100000
  if pos.type = PositionType.BUY then
    if newPrice ≤ pos.sl then
      { pos with currentPrice := newPrice, pnl := pnl,
                 status := PositionStatus.CLOSED, closeReason := some CloseReason.SL }
    else if newPrice ≥ pos.tp then
      { pos with currentPrice := newPrice, pnl := pnl,
                 status := PositionStatus.CLOSED, closeReason := some CloseReason.TP }
    else { pos with currentPrice := newPrice, pnl := pnl }
  else
    if newPrice ≥ pos.sl then
      { pos with currentPrice := newPrice, pnl := pnl,
                 status := PositionStatus.CLOSED, closeReason := some CloseReason.SL }
    else if newPrice ≤ pos.tp then
      { pos with currentPrice := newPrice, pnl := pnl,
                 status := PositionStatus.CLOSED, closeReason := some CloseReason.TP }
    else { pos with currentPrice := newPrice, pnl := pnl }

/-- The `positions.map` of `tickMarket`: each position moves by
`(Math.random() - 0.5) * volatility` with `volatility = entryPrice * 0.0001`;
the draw for the i-th position is `rand i`. -/
def tickedPositions (rand : ℕ → ℚ) (s : AccountState) : List TradePosition :=
  s.positions.mapIdx fun i pos =>
    let volatility := pos.entryPrice * (0.0001 : ℚ)
    let move := (rand i - (0.5 : ℚ)) * volatility
    tickPos move pos

/-- `tickMarket` from `paperTradingService.ts`: early return on an empty
position list, otherwise mark every position to market, realize the PnL of the
positions that hit SL/TP into the balance, keep only the still-open positions,
recompute equity and notify.  Returns the new state and whether
`notifyListeners` ran. -/
def tickMarket (rand : ℕ → ℚ) (s : AccountState) : AccountState × Bool :=
  if s.positions.length = 0 then (s, false)
  else
    let ticked := tickedPositions rand s
    let closed := ticked.filter fun p => decide (p.status = PositionStatus.CLOSED)
    let balance := closed.foldl (fun b p => b + p.pnl) s.balance
    let stillOpen := ticked.filter fun p => decide (p.status = PositionStatus.OPEN)
    (updateEquity { s with balance := balance, positions := stillOpen }, true)

/-- The account invariant of the specification: equity is balance plus the
floating PnL of the open positions, and free margin is equity minus used
margin. -/
def accountInvariant (s : AccountState) : Prop :=
  s.equity = s.balance + (s.positions.map TradePosition.pnl).sum ∧
  s.freeMargin = s.equity - s.marginUsed

/-- `CandleData` from `types.ts`. -/
structure CandleData where
  time : ℕ
  «open» : ℚ
  high : ℚ
  low : ℚ
  close : ℚ
deriving DecidableEq

/-- `isMarketActive` from `App.tsx`: fewer than 3 candles means scan anyway;
otherwise the average of the per-bar range ratios `(high - low) / open` must
strictly exceed the fixed threshold `0.00015`. -/
def isMarketActive (candles : List CandleData) : Bool :=
  if candles.length < 3 then true
  else
    let ranges := candles.map fun c => (c.high - c.low) / c.«open»
    let avgRange := ranges.foldl (fun a b => a + b) 0 / (ranges.length : ℚ)
    let threshold : ℚ := 0.00015
    decide (avgRange > threshold)

/-- The outcome of the execution gate of `runAgentCycle` (STEP 5 in
`App.tsx`). -/
inductive Decision
  | EXECUTE
  | REJECT_WAIT
  | REJECT_LOW_CONFIDENCE
deriving DecidableEq

/-- The execution decision of `runAgentCycle` in `App.tsx`: a non-WAIT action
with a confidence score at or above the configured minimum is executed; a
non-WAIT action below the minimum is rejected for low confidence; a WAIT
action is rejected outright. -/
def decideExecution (signal : TradeExecution) (minConfidence : ℚ) : Decision :=
  if signal.action ≠ TradeAction.WAIT then
    if signal.confidenceScore ≥ minConfidence then Decision.EXECUTE
    else Decision.REJECT_LOW_CONFIDENCE
  else Decision.REJECT_WAIT

/-- `AgentStatus` from `types.ts`. -/
inductive AgentStatus
  | IDLE
  | SCANNING_HTF
  | SCANNING_MTF
  | SCANNING_LTF
  | SCANNING_1m
  | ANALYZING
  | EXECUTING
  | COOLDOWN
deriving DecidableEq

/-- Log severities of `AgentLog` from `types.ts`. -/
inductive LogType
  | INFO
  | SUCCESS
  | WARNING
  | ERROR
deriving DecidableEq

/-- The message templates passed to `addAgentLog` in `App.tsx`, with the data
interpolated into each template kept structured instead of flattened into a
string. -/
inductive LogMessage
  | quotaLimitPausing
  | cooldownCompleteResuming
  | agentError (message : String)
  | scalpSignal (action : TradeAction) (entryPrice : ℚ) (confidenceScore : ℚ)
  | lowConfidence (confidenceScore : ℚ)
  | structureNeutral
  | marketFlat
  | agentDeactivated
deriving DecidableEq

/-- An entry of the agent log (id and wall-clock timestamp omitted: they are
never read back into logic). -/
structure AgentLog where
  message : LogMessage
  type : LogType
deriving DecidableEq

/-- `AgentConfig` from `types.ts`. -/
structure AgentConfig where
  isActive : Bool
  intervalSeconds : ℕ
  minConfidence : ℚ
  riskPerTrade : ℚ
deriving DecidableEq

/-- The scheduler-relevant state of the `App` component in `App.tsx`, with the
timers made explicit: `periodicTimer` is whether the `setInterval` handle in
`agentTimerRef` is armed, `resumeTimerMs` is a pending rate-limit one-shot
`setTimeout` with its delay, and `pendingViewResetMs` is the pending
`setTimeframe` reset `setTimeout` scheduled after a trade. -/
structure SchedulerState where
  config : AgentConfig
  status : AgentStatus
  logs : List AgentLog
  periodicTimer : Bool
  resumeTimerMs : Option ℕ
  pendingViewResetMs : Option ℕ
  viewTimeframe : String
  cyclesStarted : ℕ
deriving DecidableEq

/-- `addAgentLog` from `App.tsx`: prepend the entry and keep the most recent
50. -/
def addAgentLog (message : LogMessage) (type : LogType) (s : SchedulerState) :
    SchedulerState :=
  { s with logs := (({ message := message, type := type } : AgentLog) :: s.logs).take 50 }

/-- The two kinds of failure distinguished by the `catch` block of
`runAgentCycle` in `App.tsx`: the distinguished `RATE_LIMIT` error versus any
other error with its message. -/
inductive CycleError
  | rateLimit
  | other (message : String)
deriving DecidableEq

/-- The `catch` block of `runAgentCycle` in `App.tsx`: a rate-limit error logs
an error, enters COOLDOWN, clears the periodic interval and schedules a
one-shot 60000 ms resumption; any other error logs an error and enters
COOLDOWN. -/
def handleCycleError : CycleError → SchedulerState → SchedulerState
  | CycleError.rateLimit, s =>
    let s1 := addAgentLog LogMessage.quotaLimitPausing LogType.ERROR s
    let s2 := { s1 with status := AgentStatus.COOLDOWN }
    { s2 with periodicTimer := false, resumeTimerMs := some 60000 }
  | CycleError.other message, s =>
    let s1 := addAgentLog (LogMessage.agentError message) LogType.ERROR s
    { s1 with status := AgentStatus.COOLDOWN }

/-- The rate-limit resumption callback of `runAgentCycle` in `App.tsx`.  The
callback is a closure: the `agentConfig` it tests was captured when the
failing cycle's `runAgentCycle` function was created by the activation
render, not re-read from the live component state at fire time, so the
captured config is a separate argument from the live scheduler state.  On
every path that schedules this callback the captured config has
`isActive = true` (the agent was activated to arm the interval that ran the
failing cycle).  When the one-shot fires it logs the resumption, and if the
captured config is active runs one cycle (`cyclesStarted` increments) and
re-arms the periodic interval. -/
def fireResumeTimer (capturedConfig : AgentConfig) (s : SchedulerState) :
    SchedulerState :=
  match s.resumeTimerMs with
  | none => s
  | some _ =>
    let s1 := addAgentLog LogMessage.cooldownCompleteResuming LogType.INFO
      { s with resumeTimerMs := none }
    if capturedConfig.isActive then
      { s1 with cyclesStarted := s1.cyclesStarted + 1, periodicTimer := true }
    else s1

/-- Deactivating the agent (the `else` branch of the activation effect in
`App.tsx`): `clearInterval(agentTimerRef.current)` clears only the periodic
interval, the status is forced to IDLE and the deactivation is logged; the
rate-limit one-shot `setTimeout` handle was never stored in `agentTimerRef`,
so a pending `resumeTimerMs` is left armed. -/
def deactivateAgent (s : SchedulerState) : SchedulerState :=
  let s1 := { s with config := { s.config with isActive := false },
                     periodicTimer := false, status := AgentStatus.IDLE }
  addAgentLog LogMessage.agentDeactivated LogType.WARNING s1

/-- The EXECUTE branch of STEP 5 of `runAgentCycle` in `App.tsx`: set status
EXECUTING, log the scalp signal with action, entry price and confidence, and
schedule the 2000 ms chart-view reset. -/
def executeBranch (signal : TradeExecution) (s : SchedulerState) : SchedulerState :=
  let s1 := { s with status := AgentStatus.EXECUTING }
  let s2 := addAgentLog
    (LogMessage.scalpSignal signal.action signal.entryPrice signal.confidenceScore)
    LogType.SUCCESS s1
  { s2 with pendingViewResetMs := some 2000 }

/-- The delayed callback `() => chartRef.current?.setTimeframe('15m')` of the
EXECUTE branch in `App.tsx`: it resets the visible timeframe and nothing
else. -/
def fireViewReset (s : SchedulerState) : SchedulerState :=
  match s.pendingViewResetMs with
  | none => s
  | some _ => { s with pendingViewResetMs := none, viewTimeframe := "15m" }

/-- Bridge status of `AnalysisView`. -/
inductive BridgeStatus
  | IDLE
  | SENDING
  | SUCCESS
  | FAILED
deriving DecidableEq

/-- The auto-execution effect of `AnalysisView` combined with
`handlePaperExecute`: when auto-execute is on, the action is not WAIT and the
bridge status is idle, the bridge status moves to SENDING and the trade is
executed on the paper ledger; otherwise nothing happens. -/
def autoExecuteEffect (autoExecute : Bool) (execution : TradeExecution)
    (assetName : String) (bridgeStatus : BridgeStatus) (newId : String)
    (newTicket now : ℕ) (acct : AccountState) : BridgeStatus × AccountState :=
  if autoExecute = true ∧ execution.action ≠ TradeAction.WAIT ∧
      bridgeStatus = BridgeStatus.IDLE then
    (BridgeStatus.SENDING,
     (executePaperTrade newId newTicket now execution assetName acct).1)
  else (bridgeStatus, acct)

/-- The Analysis Oracle's `execution` object as parsed from JSON in
`geminiService`: every field may be absent. -/
structure ParsedExecution where
  action : Option TradeAction
  orderType : Option String
  entryPrice : Option ℚ
  stopLoss : Option ℚ
  takeProfit1 : Option ℚ
  takeProfit2 : Option ℚ
  riskRewardRatio : Option ℚ
  suggestedLeverage : Option ℚ
  lotSizeCalculation : Option ℚ
  confidenceScore : Option ℚ
  invalidationLevel : Option ℚ
deriving DecidableEq

/-- The `execution` object returned by `analyzeCharts` in `geminiService`:
the object literal lists defaults for action, confidenceScore, entryPrice,
stopLoss and takeProfit1 and then spreads `parsed.execution` last, so a field
present in the oracle's object always keeps the oracle's value and an absent
field receives the listed default; fields without a listed default
(takeProfit2 among them) are passed through unchanged. -/
def analyzeChartsExecution (marketPrice : Option ℚ) (p : ParsedExecution) :
    ParsedExecution :=
  { action := some (p.action.getD TradeAction.WAIT)
    confidenceScore := some (p.confidenceScore.getD 0)
    entryPrice := some (p.entryPrice.getD (marketPrice.getD 0))
    stopLoss := some (p.stopLoss.getD 0)
    takeProfit1 := some (p.takeProfit1.getD 0)
    takeProfit2 := p.takeProfit2
    orderType := p.orderType
    riskRewardRatio := p.riskRewardRatio
    suggestedLeverage := p.suggestedLeverage
    lotSizeCalculation := p.lotSizeCalculation
    invalidationLevel := p.invalidationLevel }

/-- The `execution` object returned by `analyzeMultiTimeframeAgent` in
`geminiService`: the oracle's object is spread first and `entryPrice` is then
unconditionally overwritten with the live price; no other field is touched. -/
def agentAnalysisExecution (livePrice : ℚ) (p : ParsedExecution) :
    ParsedExecution :=
  { p with entryPrice := some livePrice }

/-- A partially-valid oracle response: action and confidence only. -/
def sampleParsedPartial : ParsedExecution :=
  { action := some TradeAction.BUY
    orderType := none
    entryPrice := none
    stopLoss := none
    takeProfit1 := none
    takeProfit2 := none
    riskRewardRatio := none
    suggestedLeverage := none
    lotSizeCalculation := none
    confidenceScore := some 80
    invalidationLevel := none }

/-- A trade signal with the given action and confidence and neutral numeric
fields, for concrete instances. -/
def mkSignal (action : TradeAction) (confidenceScore : ℚ) : TradeExecution :=
  { action := action
    orderType := "MARKET"
    entryPrice := 0
    stopLoss := 0
    takeProfit1 := 0
    takeProfit2 := 0
    riskRewardRatio := 0
    suggestedLeverage := 0
    lotSizeCalculation := 0
    confidenceScore := confidenceScore
    invalidationLevel := 0 }

/-- A concrete BUY signal used by witnesses. -/
def sampleSignalBuy : TradeExecution :=
  { action := TradeAction.BUY
    orderType := "MARKET"
    entryPrice := 2000
    stopLoss := 1990
    takeProfit1 := 2010
    takeProfit2 := 2020
    riskRewardRatio := 2
    suggestedLeverage := 1
    lotSizeCalculation := 1
    confidenceScore := 80
    invalidationLevel := 0 }

/-- A concrete open BUY position used by witnesses. -/
def samplePosition : TradePosition :=
  { id := "a"
    ticket := 1
    asset := "XAUUSD"
    type := PositionType.BUY
    entryPrice := 2000
    currentPrice := 2005
    sl := 1990
    tp := 2010
    lots := 1
    openTime := 0
    pnl := 500000
    status := PositionStatus.OPEN
    closeReason := none }

/-- A concrete account holding `samplePosition`, used by witnesses. -/
def sampleAccount : AccountState :=
  { balance := 100000
    equity := 600000
    marginUsed := 2000
    freeMargin := 598000
    positions := [samplePosition] }

/-- An active agent configuration used by witnesses. -/
def sampleConfigActive : AgentConfig :=
  { isActive := true, intervalSeconds := 60, minConfidence := 75, riskPerTrade := 1 }

/-- A concrete scheduler state used by witnesses and counterexamples. -/
def sampleScheduler : SchedulerState :=
  { config := sampleConfigActive
    status := AgentStatus.ANALYZING
    logs := []
    periodicTimer := true
    resumeTimerMs := none
    pendingViewResetMs := none
    viewTimeframe := "15m"
    cyclesStarted := 5 }

/-- A candle whose range ratio is exactly the activity threshold 0.00015. -/
def thresholdCandle : CandleData :=
  { time := 0, «open» := 100000, high := 115, low := 100, close := 110 }

lemma updateEquity_invariant (s : AccountState) : accountInvariant (updateEquity s) := by
  constructor <;> rfl

lemma updateEquity_marginUsed (s : AccountState) :
    (updateEquity s).marginUsed = s.marginUsed := rfl

lemma updateEquity_positions (s : AccountState) :
    (updateEquity s).positions = s.positions := rfl

lemma updateEquity_balance (s : AccountState) :
    (updateEquity s).balance = s.balance := rfl

lemma foldl_add_pnl (l : List TradePosition) (b : ℚ) :
    l.foldl (fun acc p => acc + p.pnl) b = b + (l.map TradePosition.pnl).sum := by
  induction l generalizing b with
  | nil => simp
  | cons p tl ih =>
    simp only [List.foldl_cons, List.map_cons, List.sum_cons, ih]
    ring

/-- C1: every public ledger operation preserves the account invariants
`equity = balance + Σ(open pnl)` and `freeMargin = equity - marginUsed`, and
`marginUsed` is changed only by `executePaperTrade`: `closePosition` and
`tickMarket` leave it untouched. -/
theorem ledger_ops_preserve_invariant :
    ∀ s : AccountState, accountInvariant s →
      (∀ (newId : String) (newTicket now : ℕ) (execution : TradeExecution)
          (asset : String),
        accountInvariant (executePaperTrade newId newTicket now execution asset s).1) ∧
      (∀ id : String,
        accountInvariant (closePosition id s).1 ∧
        (closePosition id s).1.marginUsed = s.marginUsed) ∧
      (∀ rand : ℕ → ℚ,
        accountInvariant (tickMarket rand s).1 ∧
        (tickMarket rand s).1.marginUsed = s.marginUsed) := by
  intro s hs
  refine ⟨?_, ?_, ?_⟩
  · intro newId newTicket now execution asset
    unfold executePaperTrade
    split
    · exact hs
    · exact updateEquity_invariant _
  · intro id
    unfold closePosition
    cases h : removeFirstById id s.positions with
    | none => exact ⟨hs, rfl⟩
    | some pr => exact ⟨updateEquity_invariant _, rfl⟩
  · intro rand
    unfold tickMarket
    split
    · exact ⟨hs, rfl⟩
    · exact ⟨updateEquity_invariant _, rfl⟩

/-- Witness for C1 at concrete inputs. -/
theorem ledger_ops_preserve_invariant_witness :
    accountInvariant initialAccountState ∧
    accountInvariant
      (executePaperTrade "id-1" 123456 0 sampleSignalBuy "XAUUSD" initialAccountState).1 ∧
    (closePosition "id-1" initialAccountState).1.marginUsed =
      initialAccountState.marginUsed := by
  have hinv : accountInvariant initialAccountState := by
    constructor <;> simp [initialAccountState, INITIAL_BALANCE]
  have h := ledger_ops_preserve_invariant initialAccountState hinv
  exact ⟨hinv, h.1 "id-1" 123456 0 sampleSignalBuy "XAUUSD", (h.2.1 "id-1").2⟩

/-- C3: `executePaperTrade` is a no-op returning nothing on a WAIT signal;
otherwise it pushes exactly one new position with `currentPrice = entryPrice`,
`pnl = 0`, `sl = stopLoss` and `tp = takeProfit1`, adds
`entryPrice × lots` to the used margin, leaves the balance alone, recomputes
equity and free margin, and notifies the subscribers. -/
theorem executePaperTrade_spec :
    ∀ (newId : String) (newTicket now : ℕ) (ex : TradeExecution) (asset : String)
      (s : AccountState),
      (ex.action = TradeAction.WAIT →
        executePaperTrade newId newTicket now ex asset s = (s, false, none)) ∧
      (ex.action ≠ TradeAction.WAIT →
        ∃ p : TradePosition,
          (executePaperTrade newId newTicket now ex asset s).2.2 = some p ∧
          (executePaperTrade newId newTicket now ex asset s).1.positions =
            p :: s.positions ∧
          p.entryPrice = ex.entryPrice ∧
          p.currentPrice = ex.entryPrice ∧
          p.pnl = 0 ∧
          p.sl = ex.stopLoss ∧
          p.tp = ex.takeProfit1 ∧
          p.status = PositionStatus.OPEN ∧
          (executePaperTrade newId newTicket now ex asset s).1.marginUsed =
            s.marginUsed + ex.entryPrice * ex.lotSizeCalculation ∧
          (executePaperTrade newId newTicket now ex asset s).1.balance = s.balance ∧
          accountInvariant (executePaperTrade newId newTicket now ex asset s).1 ∧
          (executePaperTrade newId newTicket now ex asset s).2.1 = true) := by
  intro newId newTicket now ex asset s
  constructor
  · intro h
    simp [executePaperTrade, h]
  · intro h
    unfold executePaperTrade
    rw [if_neg h]
    refine ⟨_, rfl, rfl, rfl, rfl, rfl, rfl, rfl, rfl, ?_, rfl,
      updateEquity_invariant _, rfl⟩
    show s.marginUsed + ex.entryPrice * ex.lotSizeCalculation * 100 / 100 =
      s.marginUsed + ex.entryPrice * ex.lotSizeCalculation
    rw [mul_div_assoc]
    norm_num

/-- Witness for C3: a WAIT signal changes nothing, and the concrete BUY signal
increases the used margin by its entry price times its lot size. -/
theorem executePaperTrade_spec_witness :
    executePaperTrade "w" 1 0 (mkSignal TradeAction.WAIT 99) "XAUUSD"
        initialAccountState = (initialAccountState, false, none) ∧
    (executePaperTrade "w" 1 0 sampleSignalBuy "XAUUSD" initialAccountState).1.marginUsed
      = initialAccountState.marginUsed + 2000 := by
  constructor
  · exact (executePaperTrade_spec "w" 1 0 (mkSignal TradeAction.WAIT 99) "XAUUSD"
      initialAccountState).1 rfl
  · obtain ⟨p, hp⟩ := (executePaperTrade_spec "w" 1 0 sampleSignalBuy "XAUUSD"
      initialAccountState).2 (by decide)
    have hm := hp.2.2.2.2.2.2.2.2.1
    rw [hm]
    norm_num [sampleSignalBuy]

/-- C10: a market tick with no open positions returns immediately: the state
is unchanged in every field and no listener is notified. -/
theorem tickMarket_empty_noop (rand : ℕ → ℚ) (s : AccountState)
    (h : s.positions = []) : tickMarket rand s = (s, false) := by
  simp [tickMarket, h]

/-- Witness for C10 at the initial account state. -/
theorem tickMarket_empty_noop_witness :
    initialAccountState.positions = [] ∧
    tickMarket (fun _ => 0) initialAccountState = (initialAccountState, false) :=
  ⟨rfl, tickMarket_empty_noop (fun _ => 0) initialAccountState rfl⟩

lemma removeFirstById_eq_none (id : String) (l : List TradePosition)
    (h : ∀ p ∈ l, p.id ≠ id) : removeFirstById id l = none := by
  induction l with
  | nil => rfl
  | cons p tl ih =>
    have hp : ¬ p.id = id := h p (List.mem_cons_self p tl)
    have htl : removeFirstById id tl = none :=
      ih fun q hq => h q (List.mem_cons_of_mem p hq)
    simp [removeFirstById, hp, htl]

lemma removeFirstById_some_rest (id : String) (l : List TradePosition)
    (q : TradePosition) (rest : List TradePosition)
    (hcount : l.countP (fun p => decide (p.id = id)) ≤ 1)
    (h : removeFirstById id l = some (q, rest)) : ∀ p ∈ rest, p.id ≠ id := by
  induction l generalizing q rest with
  | nil => simp [removeFirstById] at h
  | cons p tl ih =>
    by_cases hp : p.id = id
    · simp only [removeFirstById, if_pos hp, Option.some.injEq, Prod.mk.injEq] at h
      obtain ⟨h1, h2⟩ := h
      subst h2
      rw [List.countP_cons] at hcount
      simp only [hp, decide_True, if_true] at hcount
      have hzero : tl.countP (fun r => decide (r.id = id)) = 0 := by omega
      intro r hr
      have := List.countP_eq_zero.mp hzero r hr
      simpa using this
    · simp only [removeFirstById, if_neg hp] at h
      cases htl : removeFirstById id tl with
      | none =>
        rw [htl] at h
        simp at h
      | some pr =>
        obtain ⟨q1, rest1⟩ := pr
        rw [htl] at h
        simp only [Option.some.injEq, Prod.mk.injEq] at h
        obtain ⟨hq, hrest⟩ := h
        subst hq
        subst hrest
        intro r hr
        rcases List.mem_cons.mp hr with hrp | hr1
        · subst hrp; exact hp
        · have hcount1 : tl.countP (fun r => decide (r.id = id)) ≤ 1 := by
            rw [List.countP_cons] at hcount
            simp only [hp, decide_False, if_false] at hcount
            omega
          exact ih _ _ hcount1 htl r hr1

/-- C4: closing an unknown position id changes nothing, and provided the id
occurs at most once in the open set (ids are freshly generated UUIDs), closing
the same id twice has the same effect as closing it once: the second call is a
no-op that does not even notify. -/
theorem closePosition_idempotent :
    ∀ (id : String) (s : AccountState),
      ((∀ p ∈ s.positions, p.id ≠ id) → closePosition id s = (s, false)) ∧
      (s.positions.countP (fun p => decide (p.id = id)) ≤ 1 →
        closePosition id (closePosition id s).1 = ((closePosition id s).1, false)) := by
  intro id s
  constructor
  · intro h
    unfold closePosition
    rw [removeFirstById_eq_none id s.positions h]
  · intro hcount
    cases h : removeFirstById id s.positions with
    | none =>
      have h1 : closePosition id s = (s, false) := by
        unfold closePosition
        rw [h]
      rw [h1]
      exact h1
    | some pr =>
      obtain ⟨q, rest⟩ := pr
      have hrest : ∀ p ∈ rest, p.id ≠ id :=
        removeFirstById_some_rest id s.positions q rest hcount h
      have h1 : closePosition id s =
          (updateEquity { s with balance := s.balance + q.pnl, positions := rest }, true) := by
        unfold closePosition
        rw [h]
      rw [h1]
      have h2 : removeFirstById id
          (updateEquity { s with balance := s.balance + q.pnl, positions := rest }).positions
            = none := by
        rw [updateEquity_positions]
        exact removeFirstById_eq_none id rest hrest
      unfold closePosition
      rw [h2]

/-- C2: marking a position to market moves its price by the given amount and
recomputes `pnl = (currentPrice − entryPrice) × direction × lots × 100000`
with direction +1 for BUY and −1 for SELL; a BUY closes as SL when the new
price is at or below the stop loss, else as TP when it is at or above the
take profit, with both comparisons inverted for a SELL; and within the same
tick every triggered position's pnl is added to the balance exactly once and
the position is removed from the open set. -/
theorem tickMarket_pnl_and_stops :
    (∀ (move : ℚ) (pos : TradePosition),
      pos.status = PositionStatus.OPEN → pos.closeReason = none →
      (tickPos move pos).currentPrice = pos.currentPrice + move ∧
      (tickPos move pos).pnl =
        (pos.currentPrice + move - pos.entryPrice) *
          (if pos.type = PositionType.BUY then 1 else -1) * pos.lots * 100000 ∧
      (pos.type = PositionType.BUY →
        (((tickPos move pos).status = PositionStatus.CLOSED) ↔
          (pos.currentPrice + move ≤ pos.sl ∨ pos.tp ≤ pos.currentPrice + move)) ∧
        (((tickPos move pos).closeReason = some CloseReason.SL) ↔
          pos.currentPrice + move ≤ pos.sl) ∧
        (((tickPos move pos).closeReason = some CloseReason.TP) ↔
          (¬ pos.currentPrice + move ≤ pos.sl ∧ pos.tp ≤ pos.currentPrice + move))) ∧
      (pos.type = PositionType.SELL →
        (((tickPos move pos).status = PositionStatus.CLOSED) ↔
          (pos.sl ≤ pos.currentPrice + move ∨ pos.currentPrice + move ≤ pos.tp)) ∧
        (((tickPos move pos).closeReason = some CloseReason.SL) ↔
          pos.sl ≤ pos.currentPrice + move) ∧
        (((tickPos move pos).closeReason = some CloseReason.TP) ↔
          (¬ pos.sl ≤ pos.currentPrice + move ∧ pos.currentPrice + move ≤ pos.tp)))) ∧
    (∀ (rand : ℕ → ℚ) (s : AccountState), s.positions ≠ [] →
      (tickMarket rand s).1.balance =
        s.balance +
          (((tickedPositions rand s).filter
              fun p => decide (p.status = PositionStatus.CLOSED)).map
            TradePosition.pnl).sum ∧
      (tickMarket rand s).1.positions =
        (tickedPositions rand s).filter
          (fun p => decide (p.status = PositionStatus.OPEN)) ∧
      (∀ p ∈ (tickMarket rand s).1.positions, p.status = PositionStatus.OPEN) ∧
      (tickMarket rand s).2 = true) := by
  constructor
  · intro move pos hst hcr
    by_cases ht : pos.type = PositionType.BUY
    · refine ⟨?_, ?_, fun _ => ?_, fun hsell => ?_⟩
      · simp only [tickPos, ht]
        split_ifs <;> rfl
      · simp [tickPos, ht]
        split_ifs <;> rfl
      · refine ⟨?_, ?_, ?_⟩ <;>
          · simp only [tickPos, ht]
            split_ifs with h1 h2 <;> simp_all
      · rw [ht] at hsell
        exact PositionType.noConfusion hsell
    · have hts : pos.type = PositionType.SELL := by
        cases hpt : pos.type
        · exact absurd hpt ht
        · rfl
      refine ⟨?_, ?_, fun hbuy => ?_, fun _ => ?_⟩
      · simp only [tickPos, hts]
        split_ifs <;> rfl
      · simp [tickPos, hts]
        split_ifs <;> rfl
      · rw [hts] at hbuy
        exact PositionType.noConfusion hbuy
      · refine ⟨?_, ?_, ?_⟩ <;>
          · simp only [tickPos, hts]
            split_ifs with h1 h2 <;> simp_all
  · intro rand s hne
    have hlen : ¬ s.positions.length = 0 := by
      simpa [List.length_eq_zero] using hne
    unfold tickMarket
    rw [if_neg hlen]
    refine ⟨?_, rfl, ?_, rfl⟩
    · exact foldl_add_pnl _ _
    · intro p hp
      have := List.of_mem_filter hp
      simpa using this

/-- Witness for C2: the specification's end-to-end scenario A — a BUY at 2000
with stop 1990 and target 2010 forced to 2011 closes as TP with pnl
1,100,000 — and a concrete tick keeps exactly the still-open positions. -/
theorem tickMarket_pnl_and_stops_witness :
    (tickPos 6 samplePosition).closeReason = some CloseReason.TP ∧
    (tickPos 6 samplePosition).pnl = 1100000 ∧
    (tickMarket (fun _ => 0) sampleAccount).1.positions =
      (tickedPositions (fun _ => 0) sampleAccount).filter
        (fun p => decide (p.status = PositionStatus.OPEN)) := by
  have h1 := tickMarket_pnl_and_stops.1 6 samplePosition rfl rfl
  have h2 := tickMarket_pnl_and_stops.2 (fun _ => 0) sampleAccount (by decide)
  refine ⟨?_, ?_, h2.2.1⟩
  · exact ((h1.2.2.1 rfl).2.2).mpr (by constructor <;> norm_num [samplePosition])
  · rw [h1.2.1]
    norm_num [samplePosition]

/-- Witness for C4: an unknown id is a no-op on a concrete account, and
closing the only position twice equals closing it once. -/
theorem closePosition_idempotent_witness :
    closePosition "zzz" sampleAccount = (sampleAccount, false) ∧
    closePosition "a" (closePosition "a" sampleAccount).1 =
      ((closePosition "a" sampleAccount).1, false) :=
  ⟨(closePosition_idempotent "zzz" sampleAccount).1 (by decide),
   (closePosition_idempotent "a" sampleAccount).2 (by decide)⟩

lemma foldl_add_rat (l : List ℚ) (b : ℚ) :
    l.foldl (fun a b => a + b) b = b + l.sum := by
  induction l generalizing b with
  | nil => simp
  | cons x tl ih =>
    simp only [List.foldl_cons, List.sum_cons, ih]
    ring

/-- C5: the market activity filter accepts any input of fewer than 3 bars;
for 3 or more bars it accepts exactly when the average per-bar range ratio
`(high − low) / open` strictly exceeds the threshold 0.00015, so an average
exactly at the threshold is rejected. -/
theorem isMarketActive_spec :
    ∀ candles : List CandleData,
      (candles.length < 3 → isMarketActive candles = true) ∧
      (3 ≤ candles.length →
        (isMarketActive candles = true ↔
          (candles.map fun c => (c.high - c.low) / c.«open»).sum /
            (candles.length : ℚ) > 0.00015)) ∧
      (3 ≤ candles.length →
        (candles.map fun c => (c.high - c.low) / c.«open»).sum /
          (candles.length : ℚ) = 0.00015 →
        isMarketActive candles = false) := by
  intro candles
  refine ⟨?_, ?_, ?_⟩
  · intro h
    simp [isMarketActive, h]
  · intro h
    have hn : ¬ candles.length < 3 := not_lt.mpr h
    unfold isMarketActive
    rw [if_neg hn]
    simp only [foldl_add_rat, zero_add, List.length_map, decide_eq_true_eq]
  · intro h heq
    have hn : ¬ candles.length < 3 := not_lt.mpr h
    unfold isMarketActive
    rw [if_neg hn]
    simp only [foldl_add_rat, zero_add, List.length_map, heq]
    simp

/-- Witness for C5: the empty input is accepted, and three bars whose average
range ratio is exactly the threshold are rejected. -/
theorem isMarketActive_spec_witness :
    isMarketActive [] = true ∧
    isMarketActive [thresholdCandle, thresholdCandle, thresholdCandle] = false := by
  constructor
  · exact (isMarketActive_spec []).1 (by norm_num)
  · refine (isMarketActive_spec [thresholdCandle, thresholdCandle, thresholdCandle]).2.2
      (by norm_num) ?_
    simp [thresholdCandle]
    norm_num

/-- C6: the execution decision rejects every WAIT signal regardless of
confidence, executes any non-WAIT signal whose confidence is at least the
configured minimum, and otherwise rejects for low confidence; in particular
a WAIT at confidence 99 against minimum 50 is rejected as WAIT, a BUY at 80
against 75 executes, and a SELL at 60 against 75 is rejected as low
confidence. -/
theorem decideExecution_spec :
    ∀ (signal : TradeExecution) (minConfidence : ℚ),
      (signal.action = TradeAction.WAIT →
        decideExecution signal minConfidence = Decision.REJECT_WAIT) ∧
      (signal.action ≠ TradeAction.WAIT → minConfidence ≤ signal.confidenceScore →
        decideExecution signal minConfidence = Decision.EXECUTE) ∧
      (signal.action ≠ TradeAction.WAIT → signal.confidenceScore < minConfidence →
        decideExecution signal minConfidence = Decision.REJECT_LOW_CONFIDENCE) ∧
      decideExecution (mkSignal TradeAction.WAIT 99) 50 = Decision.REJECT_WAIT ∧
      decideExecution (mkSignal TradeAction.BUY 80) 75 = Decision.EXECUTE ∧
      decideExecution (mkSignal TradeAction.SELL 60) 75 =
        Decision.REJECT_LOW_CONFIDENCE := by
  intro signal minConfidence
  refine ⟨?_, ?_, ?_, ?_, ?_, ?_⟩
  · intro h
    simp [decideExecution, h]
  · intro h hc
    simp [decideExecution, h, ge_iff_le, hc]
  · intro h hc
    simp [decideExecution, h, ge_iff_le, not_le.mpr hc]
  · simp [decideExecution, mkSignal]
  · have h75 : (75 : ℚ) ≤ 80 := by norm_num
    simp [decideExecution, mkSignal, h75]
  · have h75 : ¬ (75 : ℚ) ≤ 60 := by norm_num
    simp [decideExecution, mkSignal, h75]

/-- Witness for C6: the BUY-at-80-against-75 instance through the general
parts of the statement. -/
theorem decideExecution_spec_witness :
    decideExecution (mkSignal TradeAction.BUY 80) 75 = Decision.EXECUTE :=
  (decideExecution_spec (mkSignal TradeAction.BUY 80) 75).2.1
    (by decide) (by norm_num [mkSignal])


/-- C7: evaluating the rate-limit path at the failing input.  The RATE_LIMIT
failure cancels the periodic timer, logs an error, enters COOLDOWN and arms
the single 60000 ms one-shot; the agent is then deactivated during the pause
(live config inactive, one-shot still armed because its handle was never
stored); yet when the one-shot fires, the configuration captured by the
callback's closure — active, as it is on every path that schedules the
one-shot — makes it run a resumption cycle and re-arm the periodic timer
anyway, against the claim's "only if the agent is still active at resumption
time". -/
theorem rateLimit_backoff_stale_closure :
    (handleCycleError CycleError.rateLimit sampleScheduler).periodicTimer = false ∧
    (handleCycleError CycleError.rateLimit sampleScheduler).resumeTimerMs =
      some 60000 ∧
    (handleCycleError CycleError.rateLimit sampleScheduler).status =
      AgentStatus.COOLDOWN ∧
    (handleCycleError CycleError.rateLimit sampleScheduler).logs.head? =
      some { message := LogMessage.quotaLimitPausing, type := LogType.ERROR } ∧
    (deactivateAgent
      (handleCycleError CycleError.rateLimit sampleScheduler)).config.isActive =
      false ∧
    (deactivateAgent
      (handleCycleError CycleError.rateLimit sampleScheduler)).resumeTimerMs =
      some 60000 ∧
    (fireResumeTimer sampleConfigActive
      (deactivateAgent
        (handleCycleError CycleError.rateLimit sampleScheduler))).cyclesStarted =
      sampleScheduler.cyclesStarted + 1 ∧
    (fireResumeTimer sampleConfigActive
      (deactivateAgent
        (handleCycleError CycleError.rateLimit sampleScheduler))).periodicTimer =
      true ∧
    (fireResumeTimer sampleConfigActive
      (deactivateAgent
        (handleCycleError CycleError.rateLimit sampleScheduler))).resumeTimerMs =
      none :=
  ⟨rfl, rfl, rfl, rfl, rfl, rfl, rfl, rfl, rfl⟩

/-- C8 counterexample: after the EXECUTE branch runs and its only delayed
action (the chart-view reset) fires, the scheduler status is still EXECUTING,
not COOLDOWN. -/
theorem execute_branch_stays_executing :
    (fireViewReset (executeBranch sampleSignalBuy sampleScheduler)).status =
      AgentStatus.EXECUTING ∧
    ¬ (fireViewReset (executeBranch sampleSignalBuy sampleScheduler)).status =
      AgentStatus.COOLDOWN := ⟨rfl, fun h => AgentStatus.noConfusion h⟩

/-- C8 amended: on EXECUTE the scheduler sets status EXECUTING, logs a
success entry carrying the action, price and confidence, and schedules a
2-second delayed reset of the provider's visible timeframe; the position is
opened on the ledger by the analysis view's auto-execute effect (when its
bridge status is idle, moving it to SENDING); but the delayed reset changes
only the visible timeframe — the status stays EXECUTING and never returns to
COOLDOWN. -/
theorem execute_branch_spec :
    ∀ (signal : TradeExecution) (s : SchedulerState) (assetName newId : String)
      (newTicket now : ℕ) (acct : AccountState),
      signal.action ≠ TradeAction.WAIT →
      (executeBranch signal s).status = AgentStatus.EXECUTING ∧
      (executeBranch signal s).logs.head? =
        some { message := LogMessage.scalpSignal signal.action signal.entryPrice
                 signal.confidenceScore,
               type := LogType.SUCCESS } ∧
      (executeBranch signal s).pendingViewResetMs = some 2000 ∧
      (fireViewReset (executeBranch signal s)).status = AgentStatus.EXECUTING ∧
      (fireViewReset (executeBranch signal s)).viewTimeframe = "15m" ∧
      (autoExecuteEffect true signal assetName BridgeStatus.IDLE newId newTicket now
        acct).1 = BridgeStatus.SENDING ∧
      (autoExecuteEffect true signal assetName BridgeStatus.IDLE newId newTicket now
        acct).2.positions.length = acct.positions.length + 1 := by
  intro signal s assetName newId newTicket now acct h
  refine ⟨rfl, rfl, rfl, rfl, rfl, ?_, ?_⟩
  · simp [autoExecuteEffect, h]
  · simp [autoExecuteEffect, h, executePaperTrade, updateEquity]

/-- Witness for C8's amended statement at concrete inputs. -/
theorem execute_branch_spec_witness :
    (executeBranch sampleSignalBuy sampleScheduler).status = AgentStatus.EXECUTING ∧
    (autoExecuteEffect true sampleSignalBuy "XAUUSD" BridgeStatus.IDLE "id-2" 7 0
      initialAccountState).2.positions.length =
      initialAccountState.positions.length + 1 := by
  have h := execute_branch_spec sampleSignalBuy sampleScheduler "XAUUSD" "id-2" 7 0
    initialAccountState (by decide)
  exact ⟨h.1, h.2.2.2.2.2.2⟩

/-- C9 counterexample: for a partially-valid oracle response carrying only an
action and a confidence score, the manual gateway leaves `takeProfit2`
undefined rather than defaulting it to 0, and the agent gateway leaves both
`stopLoss` and `takeProfit1` undefined. -/
theorem gateway_defaulting_incomplete :
    (analyzeChartsExecution (some 2000) sampleParsedPartial).takeProfit2 = none ∧
    (agentAnalysisExecution 2000 sampleParsedPartial).stopLoss = none ∧
    (agentAnalysisExecution 2000 sampleParsedPartial).takeProfit1 = none :=
  ⟨rfl, rfl, rfl⟩

/-- C9 amended: in the manual gateway an absent action defaults to WAIT, an
absent confidence to 0, an absent entry price to the live price (0 when no
price is known), and absent stopLoss and takeProfit1 to 0, while takeProfit2
is passed through unchanged and so stays undefined when absent; in the agent
gateway the entry price is always overwritten with the live price and no
other field is defaulted. -/
theorem gateway_defaulting_spec :
    ∀ (marketPrice : Option ℚ) (livePrice : ℚ) (p : ParsedExecution),
      (analyzeChartsExecution marketPrice p).action =
        some (p.action.getD TradeAction.WAIT) ∧
      (analyzeChartsExecution marketPrice p).confidenceScore =
        some (p.confidenceScore.getD 0) ∧
      (analyzeChartsExecution marketPrice p).entryPrice =
        some (p.entryPrice.getD (marketPrice.getD 0)) ∧
      (analyzeChartsExecution marketPrice p).stopLoss = some (p.stopLoss.getD 0) ∧
      (analyzeChartsExecution marketPrice p).takeProfit1 =
        some (p.takeProfit1.getD 0) ∧
      (analyzeChartsExecution marketPrice p).takeProfit2 = p.takeProfit2 ∧
      (analyzeChartsExecution marketPrice p).entryPrice.isSome = true ∧
      (analyzeChartsExecution marketPrice p).stopLoss.isSome = true ∧
      (analyzeChartsExecution marketPrice p).takeProfit1.isSome = true ∧
      (agentAnalysisExecution livePrice p).entryPrice = some livePrice ∧
      (agentAnalysisExecution livePrice p).stopLoss = p.stopLoss ∧
      (agentAnalysisExecution livePrice p).takeProfit1 = p.takeProfit1 ∧
      (agentAnalysisExecution livePrice p).takeProfit2 = p.takeProfit2 :=
  fun _ _ _ =>
    ⟨rfl, rfl, rfl, rfl, rfl, rfl, rfl, rfl, rfl, rfl, rfl, rfl, rfl⟩

end ICC